import Mathlib

/-
Verification of the compilation-orchestrator core of basilisp
(`src/basilisp/lang/compiler/__init__.py`).

The orchestrator sequences three drivers (single-form evaluation,
whole-module compilation, cached-bytecode replay) over a shared mutable
namespace.  The external collaborators (Analyzer, Generator, Optimizer,
host compiler, runtime namespace) live outside this file's source and are
modelled at their interface boundary as an abstract `Host` record.  The
drivers themselves are translated line by line from the Python source;
every driver returns the final state, a trace of observable events
(analysis, generation, unit assembly, collector callbacks, execution),
and an `Except` result mirroring Python's raise/return behaviour
(state mutations performed before a raise persist, as in Python).
-/

namespace Basilisp

/-- Namespace state: the module's binding table (`ns.module.__dict__`,
an insertion-ordered dict modelled as an association list), the
`__basilisp_bootstrapped__` flag, and the global `genname` counter. -/
structure St (ν : Type) where
  bindings : List (String × ν)
  bootstrapped : Bool
  counter : Nat
deriving DecidableEq, Repr

/-- Replace the binding table, keeping flag and counter. -/
def withBindings {ν : Type} (st : St ν) (bs : List (String × ν)) : St ν :=
  ⟨bs, st.bootstrapped, st.counter⟩

/-- Set the `__basilisp_bootstrapped__` flag (line 235 of the source). -/
def setBootstrapped {ν : Type} (st : St ν) : St ν :=
  ⟨st.bindings, true, st.counter⟩

/-- Advance the `genname` counter. -/
def incCounter {ν : Type} (st : St ν) : St ν :=
  ⟨st.bindings, st.bootstrapped, st.counter + 1⟩

/-- Python dict assignment: update in place if the key exists, else append. -/
def setBinding {ν : Type} (bs : List (String × ν)) (k : String) (v : ν) :
    List (String × ν) :=
  if bs.any (fun p => p.1 == k) then
    bs.map (fun p => if p.1 = k then (k, v) else p)
  else bs ++ [(k, v)]

/-- Python dict lookup (`getattr` on the module). -/
def getBinding {ν : Type} (bs : List (String × ν)) (k : String) : Option ν :=
  (bs.find? (fun p => p.1 == k)).map (fun p => p.2)

/-- Python `del ns.module.__dict__[k]` (line 189 of the source). -/
def delBinding {ν : Type} (bs : List (String × ν)) (k : String) :
    List (String × ν) :=
  bs.filter (fun p => !(p.1 == k))

/-- `basilisp.lang.util.genname`: derive a fresh name from a base and the
monotone counter. -/
def genname (base : String) (n : Nat) : String :=
  base ++ "_" ++ Nat.repr n

/-- Default wrapped-function base name (`_DEFAULT_FN`, line 36). -/
def _DEFAULT_FN : String := "__lisp_expr__"

/-- Observable events of one driver invocation, in emission order:
`analyzed` marks a successful `analyze_form` call, `generated` a
successful `gen_py_ast` call, `preambleGenerated` a successful
`py_module_preamble` call, `compiled c` the production of an assembled
loadable unit `c` by the host `compile`, `collected c` an invocation of
the bytecode-collector callback with `c`, and `executed c` the
`exec` of `c` in the namespace. -/
inductive Event (φ κ : Type) where
  | analyzed (f : φ)
  | generated
  | preambleGenerated
  | compiled (c : κ)
  | collected (c : κ)
  | executed (c : κ)
deriving DecidableEq, Repr

/-- Result of a driver invocation: final namespace state, event trace,
and the returned value or propagated failure. -/
structure Out (φ κ ν ε α : Type) where
  st : St ν
  tr : List (Event φ κ)
  res : Except ε α
deriving Repr

/-- Modelled from the spec: the external collaborators of the
orchestrator, which are code of this repository outside the given source
file — the Analyzer session (`analyze_form`), the Generator session
(`gen_py_ast`, `py_module_preamble`, `statementize`, `expressionize`),
the Optimizer (`optimize` for `PythonASTOptimizer.visit`), the host
compiler/executor (`compile`, `execCode`, `callVal` for calling a bound
value, `fix_missing_locations`, `mkModule` for `ast.Module`), and the
runtime values (`noneVal` for Python `None`, `attrErr` for the host
failure when a looked-up attribute is missing).  The Analyzer sees the
current binding table (cross-form visibility); `execCode` returns the
(possibly partially) mutated bindings together with an optional
execution failure, matching Python `exec` semantics. -/
structure Host (φ α π κ ν ε : Type) where
  filename : String
  analyze_form : φ → List (String × ν) → Except ε α
  gen_py_ast : α → Except ε (List π × π)
  py_module_preamble : List (String × ν) → Except ε (List π × π)
  statementize : π → π
  expressionize : π → String → π
  mkModule : List π → π
  optimize : π → π
  fix_missing_locations : π → π
  compile : π → String → Except ε κ
  execCode : κ → List (String × ν) → List (String × ν) × Option ε
  callVal : ν → List (String × ν) → List (String × ν) × Except ε ν
  noneVal : ν
  attrErr : ε

variable {φ α π κ ν ε : Type}

/-- `_incremental_compile_module` (lines 192–218): statementize the
dependency fragments plus the main node, wrap in a module, optimize,
repair locations, host-compile into one loadable unit, report it to the
collector when one was supplied, then execute it in the namespace.
(The diagnostic `_emit_ast_string` step is decoupled from correctness
and not modelled.) -/
def _incremental_compile_module (h : Host φ α π κ ν ε) (py_deps : List π)
    (py_node : π) (st : St ν) (source_filename : String)
    (collect_bytecode : Bool) : Out φ κ ν ε Unit :=
  let module_body := (py_deps ++ [py_node]).map h.statementize
  let module := h.fix_missing_locations (h.optimize (h.mkModule module_body))
  match h.compile module source_filename with
  | .error e => ⟨st, [], .error e⟩
  | .ok bytecode =>
    let collectTr : List (Event φ κ) :=
      if collect_bytecode then [.collected bytecode] else []
    let p := h.execCode bytecode st.bindings
    let st' := withBindings st p.1
    let tr : List (Event φ κ) :=
      .compiled bytecode :: collectTr ++ [.executed bytecode]
    match p.2 with
    | none => ⟨st', tr, .ok ()⟩
    | some e => ⟨st', tr, .error e⟩

/-- `_bootstrap_module` (lines 221–235): generate the namespace preamble,
incrementally compile and execute it, then set the bootstrapped flag.
The flag assignment (line 235) is only reached when the incremental
compile returned normally; a raise skips it.  Note the routine itself
performs no flag check. -/
def _bootstrap_module (h : Host φ α π κ ν ε) (st : St ν)
    (collect_bytecode : Bool) : Out φ κ ν ε Unit :=
  match h.py_module_preamble st.bindings with
  | .error e => ⟨st, [], .error e⟩
  | .ok dn =>
    let r := _incremental_compile_module h dn.1 dn.2 st h.filename
      collect_bytecode
    match r.res with
    | .ok _ => ⟨setBootstrapped r.st, .preambleGenerated :: r.tr, .ok ()⟩
    | .error e => ⟨r.st, .preambleGenerated :: r.tr, .error e⟩

/-- The flag-guarded bootstrap invocation of `compile_and_exec_form`
(lines 159–160): bootstrap only if the namespace's flag is unset.  The
collector is not forwarded (the call at line 160 passes none). -/
def maybeBootstrap (h : Host φ α π κ ν ε) (st : St ν) : Out φ κ ν ε Unit :=
  if st.bootstrapped then ⟨st, [], .ok ()⟩
  else _bootstrap_module h st false

/-- The analysis/generation/assembly/host-compile pipeline of
`compile_and_exec_form` (lines 164–182): analyze the form, generate the
target fragments, expressionize the main node under the wrapper name,
statementize, wrap, optimize, repair locations, host-compile.  Returns
the emitted events and the assembled unit or the propagated failure. -/
def formUnit (h : Host φ α π κ ν ε) (f : φ) (final_wrapped_name : String)
    (st : St ν) : List (Event φ κ) × Except ε κ :=
  match h.analyze_form f st.bindings with
  | .error e => ([], .error e)
  | .ok lisp_ast =>
    match h.gen_py_ast lisp_ast with
    | .error e => ([.analyzed f], .error e)
    | .ok dn =>
      let form_ast :=
        (dn.1 ++ [h.expressionize dn.2 final_wrapped_name]).map h.statementize
      let ast_module :=
        h.fix_missing_locations (h.optimize (h.mkModule form_ast))
      match h.compile ast_module h.filename with
      | .error e => ([.analyzed f, .generated], .error e)
      | .ok bytecode => ([.analyzed f, .generated], .ok bytecode)

/-- `compile_and_exec_form` (lines 144–189): return Python `None` for the
absent form; otherwise bootstrap if needed (collector not forwarded),
generate a fresh wrapper name, run the pipeline, report the assembled
unit to the collector when supplied, execute it, then invoke the wrapper
binding and delete it on both the success and the failure path of the
invocation (`try`/`finally`, lines 186–189). -/
def compile_and_exec_form (h : Host φ α π κ ν ε) (form : Option φ)
    (wrapped_fn_name : String) (collect_bytecode : Bool) (st : St ν) :
    Out φ κ ν ε ν :=
  match form with
  | none => ⟨st, [], .ok h.noneVal⟩
  | some f =>
    let rb := maybeBootstrap h st
    match rb.res with
    | .error e => ⟨rb.st, rb.tr, .error e⟩
    | .ok _ =>
      let final_wrapped_name := genname wrapped_fn_name rb.st.counter
      let st2 := incCounter rb.st
      let fu := formUnit h f final_wrapped_name st2
      match fu.2 with
      | .error e => ⟨st2, rb.tr ++ fu.1, .error e⟩
      | .ok bytecode =>
        let collectTr : List (Event φ κ) :=
          if collect_bytecode then [.collected bytecode] else []
        let p := h.execCode bytecode st2.bindings
        let st3 := withBindings st2 p.1
        let tr := rb.tr ++ fu.1 ++
          (.compiled bytecode :: collectTr ++ [.executed bytecode])
        match p.2 with
        | some e => ⟨st3, tr, .error e⟩
        | none =>
          match getBinding p.1 final_wrapped_name with
          | none =>
            ⟨withBindings st3 (delBinding p.1 final_wrapped_name), tr,
              .error h.attrErr⟩
          | some v =>
            let q := h.callVal v p.1
            ⟨withBindings st3 (delBinding q.1 final_wrapped_name), tr, q.2⟩

/-- One iteration of the `compile_module` loop (lines 253–263): analyze
the form, generate, then incrementally compile and execute, forwarding
the collector. -/
def compileOneForm (h : Host φ α π κ ν ε) (collect_bytecode : Bool) (f : φ)
    (st : St ν) : Out φ κ ν ε Unit :=
  match h.analyze_form f st.bindings with
  | .error e => ⟨st, [], .error e⟩
  | .ok lisp_ast =>
    match h.gen_py_ast lisp_ast with
    | .error e => ⟨st, [.analyzed f], .error e⟩
    | .ok dn =>
      let r := _incremental_compile_module h dn.1 dn.2 st h.filename
        collect_bytecode
      ⟨r.st, .analyzed f :: .generated :: r.tr, r.res⟩

/-- The `for form in forms` loop of `compile_module`: process each form
in order; a raise aborts the remaining forms. -/
def compileModuleForms (h : Host φ α π κ ν ε) (collect_bytecode : Bool) :
    List φ → St ν → Out φ κ ν ε Unit
  | [], st => ⟨st, [], .ok ()⟩
  | f :: fs, st =>
    let r := compileOneForm h collect_bytecode f st
    match r.res with
    | .error e => ⟨r.st, r.tr, .error e⟩
    | .ok _ =>
      let r2 := compileModuleForms h collect_bytecode fs r.st
      ⟨r2.st, r.tr ++ r2.tr, r2.res⟩

/-- `compile_module` (lines 238–263): bootstrap unconditionally (the
collector is not forwarded to the bootstrap call at line 251), then
compile and load each form in order, forwarding the collector. -/
def compile_module (h : Host φ α π κ ν ε) (forms : List φ)
    (collect_bytecode : Bool) (st : St ν) : Out φ κ ν ε Unit :=
  let rb := _bootstrap_module h st false
  match rb.res with
  | .error e => ⟨rb.st, rb.tr, .error e⟩
  | .ok _ =>
    let r := compileModuleForms h collect_bytecode forms rb.st
    ⟨r.st, rb.tr ++ r.tr, r.res⟩

/-- The `for bytecode in code` loop of `compile_bytecode` (lines
279–280): execute each cached unit in order; a raise aborts the rest. -/
def replayCodes (h : Host φ α π κ ν ε) :
    List κ → St ν → Out φ κ ν ε Unit
  | [], st => ⟨st, [], .ok ()⟩
  | c :: cs, st =>
    let p := h.execCode c st.bindings
    let st' := withBindings st p.1
    match p.2 with
    | some e => ⟨st', [.executed c], .error e⟩
    | none =>
      let r := replayCodes h cs st'
      ⟨r.st, .executed c :: r.tr, r.res⟩

/-- `compile_bytecode` (lines 266–280): bootstrap the module (no
collector — the signature takes none), then execute each cached unit in
sequence; no analysis and no generation are performed. -/
def compile_bytecode (h : Host φ α π κ ν ε) (code : List κ) (st : St ν) :
    Out φ κ ν ε Unit :=
  let rb := _bootstrap_module h st false
  match rb.res with
  | .error e => ⟨rb.st, rb.tr, .error e⟩
  | .ok _ =>
    let r := replayCodes h code rb.st
    ⟨r.st, rb.tr ++ r.tr, r.res⟩

/-- Option names recognized by `compiler_opts` (the imported constants of
lines 10–28). -/
inductive CompilerOptName where
  | GENERATE_AUTO_INLINES
  | INLINE_FUNCTIONS
  | WARN_ON_SHADOWED_NAME
  | WARN_ON_SHADOWED_VAR
  | WARN_ON_UNUSED_NAMES
  | WARN_ON_NON_DYNAMIC_SET
  | USE_VAR_INDIRECTION
  | WARN_ON_VAR_INDIRECTION
deriving DecidableEq, Repr

/-- Python's `x or default` applied to an `Optional[bool]` `x`: both
`None` and `False` are falsy, so the default is taken unless `x` is
literally `True`. -/
def pyOr (x : Option Bool) (d : Bool) : Bool :=
  match x with
  | some true => true
  | _ => d

/-- `compiler_opts` (lines 97–121): build the options map with defaults
applied via the `value or default` pattern. -/
def compiler_opts (generate_auto_inlines inline_functions
    warn_on_shadowed_name warn_on_shadowed_var warn_on_unused_names
    warn_on_non_dynamic_set use_var_indirection warn_on_var_indirection :
    Option Bool) : CompilerOptName → Bool
  | .GENERATE_AUTO_INLINES => pyOr generate_auto_inlines true
  | .INLINE_FUNCTIONS => pyOr inline_functions true
  | .WARN_ON_SHADOWED_NAME => pyOr warn_on_shadowed_name false
  | .WARN_ON_SHADOWED_VAR => pyOr warn_on_shadowed_var false
  | .WARN_ON_UNUSED_NAMES => pyOr warn_on_unused_names true
  | .WARN_ON_NON_DYNAMIC_SET => pyOr warn_on_non_dynamic_set true
  | .USE_VAR_INDIRECTION => pyOr use_var_indirection false
  | .WARN_ON_VAR_INDIRECTION => pyOr warn_on_var_indirection true

/-- Is this event a collector callback? -/
def isCollectedEvent : Event φ κ → Bool
  | .collected _ => true
  | _ => false

/-- Is this event the production of an assembled unit? -/
def isCompiledEvent : Event φ κ → Bool
  | .compiled _ => true
  | _ => false

/-- Is this event the execution of a unit? -/
def isExecutedEvent : Event φ κ → Bool
  | .executed _ => true
  | _ => false

/-- Is this event a successful `analyze_form` call? -/
def isAnalyzedEvent : Event φ κ → Bool
  | .analyzed _ => true
  | _ => false

/-- Is this event a successful `gen_py_ast` call? -/
def isGeneratedEvent : Event φ κ → Bool
  | .generated => true
  | _ => false

/-- Number of collector-callback invocations in a trace. -/
def countCollected (t : List (Event φ κ)) : Nat := t.countP isCollectedEvent

/-- Number of assembled units produced in a trace. -/
def countCompiled (t : List (Event φ κ)) : Nat := t.countP isCompiledEvent

/-- Number of unit executions in a trace. -/
def countExecuted (t : List (Event φ κ)) : Nat := t.countP isExecutedEvent

/-- The loadable units reported to the collector, in callback order. -/
def collectedCodes : List (Event φ κ) → List κ
  | [] => []
  | .collected c :: t => c :: collectedCodes t
  | .analyzed _ :: t => collectedCodes t
  | .generated :: t => collectedCodes t
  | .preambleGenerated :: t => collectedCodes t
  | .compiled _ :: t => collectedCodes t
  | .executed _ :: t => collectedCodes t

/-- A trace contains no `analyze_form` and no `gen_py_ast` calls. -/
def noAnalyzeGen (t : List (Event φ κ)) : Bool :=
  t.all (fun e => !(isAnalyzedEvent e) && !(isGeneratedEvent e))

/-- Every collector callback in the trace is immediately followed by the
execution of the very unit that was just reported: the callback always
precedes the corresponding unit's execution. -/
def collectedThenExecuted [DecidableEq κ] : List (Event φ κ) → Bool
  | [] => true
  | .collected c :: t =>
    match t with
    | .executed c' :: t' => decide (c = c') && collectedThenExecuted t'
    | _ => false
  | .analyzed _ :: t => collectedThenExecuted t
  | .generated :: t => collectedThenExecuted t
  | .preambleGenerated :: t => collectedThenExecuted t
  | .compiled _ :: t => collectedThenExecuted t
  | .executed _ :: t => collectedThenExecuted t

/-- Toy instantiation of the external collaborators, used to evaluate the
drivers on concrete inputs: a form is an optional literal value (`none`
being the source language's nil), analysis is the identity but rejects
the form `some 13`, a generated or compiled unit is a list of binding
assignments, execution folds those assignments into the binding table,
and calling a bound value returns it. -/
def H0 : Host (Option Nat) (Option Nat) (List (String × Option Nat))
    (List (String × Option Nat)) (Option Nat) Nat where
  filename := "toy.lpy"
  analyze_form := fun f _ => if f = some 13 then .error 3 else .ok f
  gen_py_ast := fun a => .ok ([], [("", a)])
  py_module_preamble := fun _ => .ok ([], [("__preamble__", some 1)])
  statementize := id
  expressionize := fun node name => node.map (fun p => (name, p.2))
  mkModule := fun l => l.foldr (fun a b => a ++ b) []
  optimize := id
  fix_missing_locations := id
  compile := fun p _ => .ok p
  execCode := fun c bs => (c.foldl (fun b q => setBinding b q.1 q.2) bs, none)
  callVal := fun v bs => (bs, .ok v)
  noneVal := none
  attrErr := 0

/-- Variant of the toy host whose host compiler always fails: every
assembly attempt (including the bootstrap preamble's) raises. -/
def Hbad : Host (Option Nat) (Option Nat) (List (String × Option Nat))
    (List (String × Option Nat)) (Option Nat) Nat :=
  { H0 with compile := fun _ _ => .error 7 }

/-- A fresh, not-yet-bootstrapped namespace. -/
def st0 : St (Option Nat) := ⟨[], false, 0⟩


/-- The binding deleted by the Python `del` is absent afterwards,
whatever the table held. -/
theorem getBinding_delBinding {ν : Type} (bs : List (String × ν))
    (k : String) : getBinding (delBinding bs k) k = none := by
  unfold getBinding delBinding
  rw [Option.map_eq_none', List.find?_eq_none]
  intro x hx
  have hmem := List.mem_filter.mp hx
  simpa using hmem.2

/-- A successful bootstrap leaves the flag set. -/
theorem bootstrap_ok_flag (h : Host φ α π κ ν ε) (st : St ν) (c : Bool)
    (hok : (_bootstrap_module h st c).res = .ok ()) :
    (_bootstrap_module h st c).st.bootstrapped = true := by
  rcases hp : h.py_module_preamble st.bindings with e | dn
  · simp only [_bootstrap_module, hp] at hok
    exact absurd hok (by simp)
  · rcases hr : (_incremental_compile_module h dn.1 dn.2 st h.filename c).res
      with e | u
    · simp only [_bootstrap_module, hp, hr] at hok
      exact absurd hok (by simp)
    · simp only [_bootstrap_module, hp, hr, setBootstrapped]

/-- The incremental loader only touches the binding table: flag and
counter are unchanged. -/
theorem incremental_st_fields (h : Host φ α π κ ν ε) (d : List π) (n : π)
    (st : St ν) (fn : String) (c : Bool) :
    (_incremental_compile_module h d n st fn c).st.bootstrapped
        = st.bootstrapped
    ∧ (_incremental_compile_module h d n st fn c).st.counter = st.counter := by
  rcases hc : h.compile (h.fix_missing_locations (h.optimize (h.mkModule
      (List.map h.statementize (d ++ [n]))))) fn with e | b
  · simp only [_incremental_compile_module, hc]
    exact ⟨trivial, trivial⟩
  · rcases hq : (h.execCode b st.bindings).2 with _ | e <;>
      simp only [_incremental_compile_module, hc, hq, withBindings] <;>
      exact ⟨trivial, trivial⟩

/-- C4: in `compiler_opts`, for every option whose documented default is
true (`generate_auto_inlines`, `inline_functions`, `warn_on_unused_names`,
`warn_on_non_dynamic_set`, `warn_on_var_indirection`), passing an explicit
`False` override produces the same options map as passing no override at
all: under the `value or default` pattern, explicit false and absent are
indistinguishable. -/
theorem c4_explicit_false_indistinguishable
    (a b c d e f g i : Option Bool) :
    compiler_opts (some false) b c d e f g i
        = compiler_opts none b c d e f g i
    ∧ compiler_opts a (some false) c d e f g i
        = compiler_opts a none c d e f g i
    ∧ compiler_opts a b c d (some false) f g i
        = compiler_opts a b c d none f g i
    ∧ compiler_opts a b c d e (some false) g i
        = compiler_opts a b c d e none g i
    ∧ compiler_opts a b c d e f g (some false)
        = compiler_opts a b c d e f g none := by
  refine ⟨?_, ?_, ?_, ?_, ?_⟩ <;> funext n <;> cases n <;> rfl

/-- C8: `compiler_opts` with no overrides yields the documented default
for every recognized option name (auto-inlines, inline-functions,
unused-names and non-dynamic-set warnings, and warn-on-var-indirection
true; the shadowed-name/shadowed-var warnings and use-var-indirection
false), and supplying an override for one option name leaves every other
option's value unchanged. -/
theorem c8_defaults_and_independence :
    (compiler_opts none none none none none none none none
        .GENERATE_AUTO_INLINES = true
     ∧ compiler_opts none none none none none none none none
        .INLINE_FUNCTIONS = true
     ∧ compiler_opts none none none none none none none none
        .WARN_ON_SHADOWED_NAME = false
     ∧ compiler_opts none none none none none none none none
        .WARN_ON_SHADOWED_VAR = false
     ∧ compiler_opts none none none none none none none none
        .WARN_ON_UNUSED_NAMES = true
     ∧ compiler_opts none none none none none none none none
        .WARN_ON_NON_DYNAMIC_SET = true
     ∧ compiler_opts none none none none none none none none
        .USE_VAR_INDIRECTION = false
     ∧ compiler_opts none none none none none none none none
        .WARN_ON_VAR_INDIRECTION = true)
    ∧ ((∀ v n, n ≠ CompilerOptName.GENERATE_AUTO_INLINES →
          compiler_opts v none none none none none none none n
            = compiler_opts none none none none none none none none n)
     ∧ (∀ v n, n ≠ CompilerOptName.INLINE_FUNCTIONS →
          compiler_opts none v none none none none none none n
            = compiler_opts none none none none none none none none n)
     ∧ (∀ v n, n ≠ CompilerOptName.WARN_ON_SHADOWED_NAME →
          compiler_opts none none v none none none none none n
            = compiler_opts none none none none none none none none n)
     ∧ (∀ v n, n ≠ CompilerOptName.WARN_ON_SHADOWED_VAR →
          compiler_opts none none none v none none none none n
            = compiler_opts none none none none none none none none n)
     ∧ (∀ v n, n ≠ CompilerOptName.WARN_ON_UNUSED_NAMES →
          compiler_opts none none none none v none none none n
            = compiler_opts none none none none none none none none n)
     ∧ (∀ v n, n ≠ CompilerOptName.WARN_ON_NON_DYNAMIC_SET →
          compiler_opts none none none none none v none none n
            = compiler_opts none none none none none none none none n)
     ∧ (∀ v n, n ≠ CompilerOptName.USE_VAR_INDIRECTION →
          compiler_opts none none none none none none v none n
            = compiler_opts none none none none none none none none n)
     ∧ (∀ v n, n ≠ CompilerOptName.WARN_ON_VAR_INDIRECTION →
          compiler_opts none none none none none none none v n
            = compiler_opts none none none none none none none none n)) := by
  constructor
  · exact ⟨rfl, rfl, rfl, rfl, rfl, rfl, rfl, rfl⟩
  · refine ⟨?_, ?_, ?_, ?_, ?_, ?_, ?_, ?_⟩ <;>
      (intro v n hn; cases n <;> first | rfl | exact absurd rfl hn)

/-- Witness for C8: overriding `generate_auto_inlines` does not change
the `inline_functions` entry. -/
theorem c8_witness :
    compiler_opts (some false) none none none none none none none
        CompilerOptName.INLINE_FUNCTIONS
      = compiler_opts none none none none none none none none
        CompilerOptName.INLINE_FUNCTIONS :=
  c8_defaults_and_independence.2.1 (some false)
    CompilerOptName.INLINE_FUNCTIONS (by decide)

/-- C9: invoking `compile_and_exec_form` with the absent form returns the
no-value sentinel (Python `None`) and performs no namespace mutation at
all: the state is returned unchanged (no bootstrap, no wrapper binding)
and the trace is empty (no analysis, no generation, no unit). -/
theorem c9_empty_form_noop (h : Host φ α π κ ν ε) (base : String)
    (collect : Bool) (st : St ν) :
    compile_and_exec_form h none base collect st = ⟨st, [], .ok h.noneVal⟩ :=
  rfl

/-- C10: the no-value sentinel is indistinguishable from a genuine
result: the non-empty form `some none` (a literal nil) makes
`compile_and_exec_form` return the very same sentinel value that the
absent form produces, so the return value alone cannot tell the two
apart. -/
theorem c10_nil_result_equals_sentinel :
    (some none : Option (Option Nat)) ≠ none
    ∧ (compile_and_exec_form H0 (some none) "z" false st0).res
        = .ok H0.noneVal
    ∧ (compile_and_exec_form H0 none "z" false st0).res = .ok H0.noneVal :=
  ⟨by decide, rfl, rfl⟩


/-- C2 (amended): the guarded bootstrap invocation used by
`compile_and_exec_form` — check the namespace's bootstrapped flag and
bootstrap only when it is unset — is idempotent: after one successful
guarded invocation, a second one finds the flag true and returns
immediately, with no events (nothing loaded) and no state change, so the
preamble executes exactly once across the two calls.  (The bootstrap
routine `_bootstrap_module` itself performs no flag check; see the
counterexample.) -/
theorem c2_guarded_bootstrap_idempotent (h : Host φ α π κ ν ε) (st : St ν)
    (hok : (maybeBootstrap h st).res = .ok ()) :
    maybeBootstrap h (maybeBootstrap h st).st
      = ⟨(maybeBootstrap h st).st, [], .ok ()⟩ := by
  cases hb : st.bootstrapped with
  | false =>
    have hok' : (_bootstrap_module h st false).res = .ok () := by
      simpa [maybeBootstrap, hb] using hok
    have hflag := bootstrap_ok_flag h st false hok'
    simp [maybeBootstrap, hb, hflag]
  | true => simp [maybeBootstrap, hb]

/-- Witness for C2: on the toy host and a fresh namespace, a second
guarded bootstrap invocation is a no-op. -/
theorem c2_witness :
    maybeBootstrap H0 (maybeBootstrap H0 st0).st
      = ⟨(maybeBootstrap H0 st0).st, [], .ok ()⟩ :=
  c2_guarded_bootstrap_idempotent H0 st0 rfl

/-- Counterexample to C2 as stated: the bootstrap step
`_bootstrap_module` does not check the flag, so invoking it twice on the
same namespace executes the preamble twice — the second invocation loads
a unit again (one more execution event) instead of returning
immediately. -/
theorem c2_counterexample :
    countExecuted
        (_bootstrap_module H0 (_bootstrap_module H0 st0 false).st false).tr
      = 1
    ∧ countExecuted ((_bootstrap_module H0 st0 false).tr
        ++ (_bootstrap_module H0 (_bootstrap_module H0 st0 false).st
            false).tr)
      = 2 :=
  ⟨rfl, rfl⟩

/-- C6: in `_bootstrap_module`, the bootstrapped flag is set to true only
after the preamble has been generated, compiled and executed
successfully; on any failure the flag keeps its previous value (so a
later call can retry) and the failure returned is exactly the one raised
by preamble generation or by the incremental compile/load — propagated
uninterpreted. -/
theorem c6_bootstrap_failure_semantics (h : Host φ α π κ ν ε) (st : St ν)
    (c : Bool) :
    ((_bootstrap_module h st c).res = .ok () →
      (_bootstrap_module h st c).st.bootstrapped = true)
    ∧ (∀ e : ε, (_bootstrap_module h st c).res = .error e →
        (_bootstrap_module h st c).st.bootstrapped = st.bootstrapped
        ∧ (h.py_module_preamble st.bindings = .error e
          ∨ ∃ dn : List π × π, h.py_module_preamble st.bindings = .ok dn
            ∧ (_incremental_compile_module h dn.1 dn.2 st h.filename c).res
              = .error e)) := by
  constructor
  · exact bootstrap_ok_flag h st c
  · intro e herr
    rcases hp : h.py_module_preamble st.bindings with e' | dn
    · simp only [_bootstrap_module, hp] at herr
      injection herr with h1
      subst h1
      simp [_bootstrap_module, hp]
    · rcases hr : (_incremental_compile_module h dn.1 dn.2 st h.filename
          c).res with e'' | u
      · simp only [_bootstrap_module, hp, hr] at herr
        injection herr with h1
        subst h1
        refine ⟨?_, .inr ⟨dn, rfl, hr⟩⟩
        simp only [_bootstrap_module, hp, hr]
        exact (incremental_st_fields h dn.1 dn.2 st h.filename c).1
      · simp only [_bootstrap_module, hp, hr] at herr
        exact absurd herr (by simp)

/-- Witness for C6: on the host whose compiler always fails, bootstrap
fails and the flag keeps its previous (false) value, with the failure
coming from the incremental compile step. -/
theorem c6_witness :
    (_bootstrap_module Hbad st0 false).st.bootstrapped = st0.bootstrapped
    ∧ (Hbad.py_module_preamble st0.bindings = .error 7
      ∨ ∃ dn : List (List (String × Option Nat)) × List (String × Option Nat),
          Hbad.py_module_preamble st0.bindings = .ok dn
          ∧ (_incremental_compile_module Hbad dn.1 dn.2 st0 Hbad.filename
              false).res = .error 7) :=
  (c6_bootstrap_failure_semantics Hbad st0 false).2 7 rfl

/-- C5: whenever the single-form driver reaches the wrapper invocation —
bootstrap, the analysis/generation/compile pipeline and the unit's
execution all succeeded — the synthetic wrapper's generated name is
absent from the namespace's binding table after the call returns, both
when the invocation returns a value and when it propagates a failure
(the deletion runs on both paths of the try/finally). -/
theorem c5_wrapper_cleanup (h : Host φ α π κ ν ε) (f : φ) (base : String)
    (collect : Bool) (st : St ν) (c : κ)
    (hboot : (maybeBootstrap h st).res = .ok ())
    (hform : (formUnit h f (genname base (maybeBootstrap h st).st.counter)
        (incCounter (maybeBootstrap h st).st)).2 = .ok c)
    (hexec : (h.execCode c (incCounter (maybeBootstrap h st).st).bindings).2
        = none) :
    getBinding (compile_and_exec_form h (some f) base collect st).st.bindings
      (genname base (maybeBootstrap h st).st.counter) = none := by
  simp only [compile_and_exec_form, hboot, hform, hexec]
  rcases hg : getBinding
      (h.execCode c (incCounter (maybeBootstrap h st).st).bindings).1
      (genname base (maybeBootstrap h st).st.counter) with _ | v
  · simp only [hg, withBindings]
    exact getBinding_delBinding _ _
  · simp only [hg, withBindings]
    exact getBinding_delBinding _ _

/-- Witness for C5: a concrete single-form evaluation on the toy host
leaves no wrapper binding behind. -/
theorem c5_witness :
    getBinding
        ((compile_and_exec_form H0 (some (some 5)) "y" false st0).st.bindings)
        (genname "y" (maybeBootstrap H0 st0).st.counter)
      = none :=
  c5_wrapper_cleanup H0 (some 5) "y" false st0 [("y_0", some 5)] rfl rfl rfl


theorem compileModuleForms_append (h : Host φ α π κ ν ε) (c : Bool)
    (l₁ l₂ : List φ) (st : St ν)
    (hok : (compileModuleForms h c l₁ st).res = .ok ()) :
    compileModuleForms h c (l₁ ++ l₂) st
      = ⟨(compileModuleForms h c l₂ (compileModuleForms h c l₁ st).st).st,
         (compileModuleForms h c l₁ st).tr
           ++ (compileModuleForms h c l₂
                (compileModuleForms h c l₁ st).st).tr,
         (compileModuleForms h c l₂
            (compileModuleForms h c l₁ st).st).res⟩ := by
  induction l₁ generalizing st with
  | nil => rfl
  | cons f l₁ ih =>
    rcases h1 : (compileOneForm h c f st).res with e | u
    · exfalso
      simp [compileModuleForms, h1] at hok
    · cases u
      have hok' : (compileModuleForms h c l₁ (compileOneForm h c f st).st).res
          = .ok () := by
        simpa [compileModuleForms, h1] using hok
      simp only [compileModuleForms, List.cons_append, List.append_eq, h1]
      rw [ih _ hok']
      simp [List.append_assoc]


/-- C7: in the whole-module driver's loop, units are loaded strictly in
the order the forms were supplied — the forms after a prefix are
processed starting from the state the prefix's loads produced — and a
failing form aborts all remaining forms while keeping the effects of the
forms already loaded (no rollback: the final state is exactly the state
after the failing form's partial processing of the prefix state, and the
trace contains nothing from the aborted forms). -/
theorem c7_strict_order_abort_no_rollback :
    (∀ (h : Host φ α π κ ν ε) (c : Bool) (l₁ l₂ : List φ) (st : St ν),
      (compileModuleForms h c l₁ st).res = .ok () →
      compileModuleForms h c (l₁ ++ l₂) st
        = ⟨(compileModuleForms h c l₂ (compileModuleForms h c l₁ st).st).st,
           (compileModuleForms h c l₁ st).tr
             ++ (compileModuleForms h c l₂
                  (compileModuleForms h c l₁ st).st).tr,
           (compileModuleForms h c l₂
              (compileModuleForms h c l₁ st).st).res⟩)
    ∧ (∀ (h : Host φ α π κ ν ε) (c : Bool) (l₁ : List φ) (f : φ)
        (l₂ : List φ) (st : St ν) (e : ε),
      (compileModuleForms h c l₁ st).res = .ok () →
      (compileOneForm h c f (compileModuleForms h c l₁ st).st).res
        = .error e →
      compileModuleForms h c (l₁ ++ f :: l₂) st
        = ⟨(compileOneForm h c f (compileModuleForms h c l₁ st).st).st,
           (compileModuleForms h c l₁ st).tr
             ++ (compileOneForm h c f
                  (compileModuleForms h c l₁ st).st).tr,
           .error e⟩) := by
  constructor
  · exact fun h c l₁ l₂ st hok => compileModuleForms_append h c l₁ l₂ st hok
  · intro h c l₁ f l₂ st e hok herr
    rw [compileModuleForms_append h c l₁ (f :: l₂) st hok]
    simp only [compileModuleForms, herr]

/-- Witness for C7: on the toy host, the module [1, 13, 2] fails at the
analysis-rejected form 13; the loop stops there with form 1 still
loaded. -/
theorem c7_witness :
    compileModuleForms H0 true ([some 1] ++ (some 13) :: [some 2])
        (_bootstrap_module H0 st0 false).st
      = ⟨(compileOneForm H0 true (some 13)
            (compileModuleForms H0 true [some 1]
              (_bootstrap_module H0 st0 false).st).st).st,
         (compileModuleForms H0 true [some 1]
            (_bootstrap_module H0 st0 false).st).tr
           ++ (compileOneForm H0 true (some 13)
                (compileModuleForms H0 true [some 1]
                  (_bootstrap_module H0 st0 false).st).st).tr,
         .error 3⟩ :=
  c7_strict_order_abort_no_rollback.2 H0 true [some 1] (some 13) [some 2]
    (_bootstrap_module H0 st0 false).st 3 rfl rfl


theorem collectedCodes_append (t₁ t₂ : List (Event φ κ)) :
    collectedCodes (t₁ ++ t₂) = collectedCodes t₁ ++ collectedCodes t₂ := by
  induction t₁ with
  | nil => rfl
  | cons e t ih => cases e <;> simp [collectedCodes, ih]

/-- With no collector supplied, the incremental loader reports nothing. -/
theorem incremental_no_collected (h : Host φ α π κ ν ε) (d : List π) (n : π)
    (st : St ν) (fn : String) :
    collectedCodes (_incremental_compile_module h d n st fn false).tr
      = [] := by
  rcases hc : h.compile (h.fix_missing_locations (h.optimize (h.mkModule
      (List.map h.statementize d ++ [h.statementize n])))) fn with e | b
  · simp [_incremental_compile_module, hc, collectedCodes]
  · rcases hq : (h.execCode b st.bindings).2 with _ | e <;>
      simp [_incremental_compile_module, hc, hq, collectedCodes]

/-- The bootstrap step never reports its preamble unit to the collector:
the drivers do not forward the callback to it. -/
theorem bootstrap_no_collected (h : Host φ α π κ ν ε) (st : St ν) :
    collectedCodes (_bootstrap_module h st false).tr = [] := by
  rcases hp : h.py_module_preamble st.bindings with e | dn
  · simp [_bootstrap_module, hp, collectedCodes]
  · rcases hr : (_incremental_compile_module h dn.1 dn.2 st h.filename
        false).res with e | u <;>
      simp [_bootstrap_module, hp, hr, collectedCodes,
        incremental_no_collected]

/-- Structure of a successful module-loop iteration: one unit was
assembled, reported, and executed without failure, and the state change
is exactly that unit's execution effect. -/
theorem compileOneForm_ok (h : Host φ α π κ ν ε) (f : φ) (st : St ν)
    (hok : (compileOneForm h true f st).res = .ok ()) :
    ∃ c : κ, (h.execCode c st.bindings).2 = none
      ∧ compileOneForm h true f st
        = ⟨withBindings st (h.execCode c st.bindings).1,
           [.analyzed f, .generated, .compiled c, .collected c,
            .executed c],
           .ok ()⟩ := by
  rcases ha : h.analyze_form f st.bindings with e | a
  · simp [compileOneForm, ha] at hok
  · rcases hg : h.gen_py_ast a with e | dn
    · simp [compileOneForm, ha, hg] at hok
    · rcases hc : h.compile (h.fix_missing_locations (h.optimize (h.mkModule
          (List.map h.statementize dn.1 ++ [h.statementize dn.2]))))
          h.filename with e | b
      · simp [compileOneForm, ha, hg, _incremental_compile_module, hc] at hok
      · rcases hq : (h.execCode b st.bindings).2 with _ | e
        · refine ⟨b, hq, ?_⟩
          simp [compileOneForm, ha, hg, _incremental_compile_module, hc, hq]
        · simp [compileOneForm, ha, hg, _incremental_compile_module, hc,
            hq] at hok

/-- Replaying exactly the loadable units that a successful module loop
reported to the collector, starting from the same state, reaches the
same final state: execution is deterministic and the loop's state change
is exactly the units' cumulative execution effect. -/
theorem replay_matches_module_loop (h : Host φ α π κ ν ε) (fs : List φ)
    (st : St ν)
    (hok : (compileModuleForms h true fs st).res = .ok ()) :
    replayCodes h (collectedCodes (compileModuleForms h true fs st).tr) st
      = ⟨(compileModuleForms h true fs st).st,
         List.map Event.executed
           (collectedCodes (compileModuleForms h true fs st).tr),
         .ok ()⟩ := by
  induction fs generalizing st with
  | nil => rfl
  | cons f fs ih =>
    have hok1 : (compileOneForm h true f st).res = .ok () := by
      rcases h1 : (compileOneForm h true f st).res with e | u
      · exfalso; simp [compileModuleForms, h1] at hok
      · cases u; rfl
    have hok2 : (compileModuleForms h true fs
        (compileOneForm h true f st).st).res = .ok () := by
      simpa [compileModuleForms, hok1] using hok
    obtain ⟨c, hq, heq⟩ := compileOneForm_ok h f st hok1
    have ihr := ih ((compileOneForm h true f st).st) hok2
    simp only [compileModuleForms, hok1, heq, collectedCodes,
      collectedCodes_append] at ihr ⊢
    simp only [List.singleton_append, List.map_cons, replayCodes, hq,
      List.append_eq, List.nil_append, ihr]


theorem noAnalyzeGen_incremental (h : Host φ α π κ ν ε) (d : List π) (n : π)
    (st : St ν) (fn : String) (c : Bool) :
    noAnalyzeGen (_incremental_compile_module h d n st fn c).tr = true := by
  rcases hc : h.compile (h.fix_missing_locations (h.optimize (h.mkModule
      (List.map h.statementize d ++ [h.statementize n])))) fn with e | b
  · simp [_incremental_compile_module, hc, noAnalyzeGen]
  · rcases hq : (h.execCode b st.bindings).2 with _ | e <;> cases c <;>
      simp [_incremental_compile_module, hc, hq, noAnalyzeGen,
        isAnalyzedEvent, isGeneratedEvent]

theorem noAnalyzeGen_bootstrap (h : Host φ α π κ ν ε) (st : St ν)
    (c : Bool) :
    noAnalyzeGen (_bootstrap_module h st c).tr = true := by
  rcases hp : h.py_module_preamble st.bindings with e | dn
  · simp [_bootstrap_module, hp, noAnalyzeGen]
  · have hi := noAnalyzeGen_incremental h dn.1 dn.2 st h.filename c
    rcases hr : (_incremental_compile_module h dn.1 dn.2 st h.filename
        c).res with e | u <;>
      simp [_bootstrap_module, hp, hr, noAnalyzeGen, isAnalyzedEvent,
        isGeneratedEvent] at hi ⊢ <;>
      exact hi

theorem noAnalyzeGen_replay (h : Host φ α π κ ν ε) (codes : List κ)
    (st : St ν) :
    noAnalyzeGen (replayCodes h codes st).tr = true := by
  induction codes generalizing st with
  | nil => simp [replayCodes, noAnalyzeGen]
  | cons c cs ih =>
    rcases hq : (h.execCode c st.bindings).2 with _ | e
    · have hi := ih (withBindings st (h.execCode c st.bindings).1)
      simp [replayCodes, hq, noAnalyzeGen, isAnalyzedEvent,
        isGeneratedEvent] at hi ⊢
      exact hi
    · simp [replayCodes, hq, noAnalyzeGen, isAnalyzedEvent,
        isGeneratedEvent]

/-- The replay driver performs no analysis and no generation: its trace
never contains an analyze or a generate event. -/
theorem noAnalyzeGen_compile_bytecode (h : Host φ α π κ ν ε)
    (codes : List κ) (st : St ν) :
    noAnalyzeGen (compile_bytecode h codes st).tr = true := by
  have hb := noAnalyzeGen_bootstrap h st false
  rcases hr : (_bootstrap_module h st false).res with e | u
  · simp [compile_bytecode, hr, noAnalyzeGen] at hb ⊢
    exact hb
  · have hrep := noAnalyzeGen_replay h codes (_bootstrap_module h st false).st
    simp [compile_bytecode, hr, noAnalyzeGen, List.all_append] at hb hrep ⊢
    exact ⟨hb, hrep⟩

/-- C3: compiling a module of forms with the whole-module driver while
capturing the sequence of loadable units via the collector, then feeding
that exact sequence to the replay driver starting from the same fresh
namespace state, yields the same final namespace state (hence the same
bindings); the replay run returns normally and performs no analysis and
no generation (its trace contains no analyze or generate events — only
the bootstrap preamble and the units' executions). -/
theorem c3_replay_equivalence (h : Host φ α π κ ν ε) (forms : List φ)
    (st : St ν)
    (hok : (compile_module h forms true st).res = .ok ()) :
    (compile_bytecode h
        (collectedCodes (compile_module h forms true st).tr) st).st
      = (compile_module h forms true st).st
    ∧ (compile_bytecode h
        (collectedCodes (compile_module h forms true st).tr) st).res
      = .ok ()
    ∧ (∀ (codes : List κ) (stx : St ν),
        noAnalyzeGen (compile_bytecode h codes stx).tr = true) := by
  have hrb : (_bootstrap_module h st false).res = .ok () := by
    rcases hb : (_bootstrap_module h st false).res with e | u
    · exfalso; simp [compile_module, hb] at hok
    · cases u; rfl
  have hfs : (compileModuleForms h true forms
      (_bootstrap_module h st false).st).res = .ok () := by
    simpa [compile_module, hrb] using hok
  have hrep := replay_matches_module_loop h forms
    ((_bootstrap_module h st false).st) hfs
  have hcc : collectedCodes (compile_module h forms true st).tr
      = collectedCodes (compileModuleForms h true forms
          (_bootstrap_module h st false).st).tr := by
    simp [compile_module, hrb, collectedCodes_append, bootstrap_no_collected]
  refine ⟨?_, ?_, fun codes stx => noAnalyzeGen_compile_bytecode h codes stx⟩
  · simp only [hcc, compile_bytecode, hrb, hrep, compile_module,
      collectedCodes_append, bootstrap_no_collected, List.nil_append]
  · simp only [hcc, compile_bytecode, hrb, hrep, compile_module,
      collectedCodes_append, bootstrap_no_collected, List.nil_append]

/-- Witness for C3: replaying the units collected while compiling the
toy module [1, 2] reproduces the namespace the direct compile built. -/
theorem c3_witness :
    (compile_bytecode H0 (collectedCodes
        (compile_module H0 [some 1, some 2] true st0).tr) st0).st
      = (compile_module H0 [some 1, some 2] true st0).st
    ∧ (compile_bytecode H0 (collectedCodes
        (compile_module H0 [some 1, some 2] true st0).tr) st0).res
      = .ok () :=
  ⟨(c3_replay_equivalence H0 [some 1, some 2] st0 rfl).1,
   (c3_replay_equivalence H0 [some 1, some 2] st0 rfl).2.1⟩


theorem cte_append [DecidableEq κ] (t₁ t₂ : List (Event φ κ))
    (h₁ : collectedThenExecuted t₁ = true)
    (h₂ : collectedThenExecuted t₂ = true) :
    collectedThenExecuted (t₁ ++ t₂) = true := by
  induction t₁ with
  | nil => simpa using h₂
  | cons e t ih =>
    cases e with
    | collected c =>
      cases t with
      | nil => simp [collectedThenExecuted] at h₁
      | cons x t' =>
        cases x with
        | executed c' =>
          simp only [collectedThenExecuted, List.cons_append] at h₁ ⊢
          obtain ⟨hcc, ht⟩ := Bool.and_eq_true_iff.mp h₁
          have ih' : collectedThenExecuted (t' ++ t₂) = true := by
            have hstep : collectedThenExecuted
                (Event.executed c' :: (t' ++ t₂)) = true := by
              refine ih ?_
              simpa [collectedThenExecuted] using ht
            simpa [collectedThenExecuted] using hstep
          rw [Bool.and_eq_true_iff]
          exact ⟨hcc, ih'⟩
        | analyzed f => simp [collectedThenExecuted] at h₁
        | generated => simp [collectedThenExecuted] at h₁
        | preambleGenerated => simp [collectedThenExecuted] at h₁
        | compiled c'' => simp [collectedThenExecuted] at h₁
        | collected c'' => simp [collectedThenExecuted] at h₁
    | analyzed f =>
      simp only [collectedThenExecuted, List.cons_append] at h₁ ⊢
      exact ih h₁
    | generated =>
      simp only [collectedThenExecuted, List.cons_append] at h₁ ⊢
      exact ih h₁
    | preambleGenerated =>
      simp only [collectedThenExecuted, List.cons_append] at h₁ ⊢
      exact ih h₁
    | compiled c'' =>
      simp only [collectedThenExecuted, List.cons_append] at h₁ ⊢
      exact ih h₁
    | executed c'' =>
      simp only [collectedThenExecuted, List.cons_append] at h₁ ⊢
      exact ih h₁

theorem collectTr_true (b : κ) :
    (if true then [Event.collected b] else ([] : List (Event φ κ)))
      = [Event.collected b] := rfl

theorem incremental_collector [DecidableEq κ] (h : Host φ α π κ ν ε)
    (d : List π) (n : π) (st : St ν) (fn : String) (c : Bool) :
    countCollected (_incremental_compile_module h d n st fn c).tr
      = (if c then countCompiled (_incremental_compile_module h d n st fn
          c).tr else 0)
    ∧ collectedThenExecuted
        (_incremental_compile_module h d n st fn c).tr = true := by
  rcases hc : h.compile (h.fix_missing_locations (h.optimize (h.mkModule
      (List.map h.statementize d ++ [h.statementize n])))) fn with e | b
  · cases c <;>
      simp [_incremental_compile_module, hc, countCollected, countCompiled,
        collectedThenExecuted]
  · rcases hq : (h.execCode b st.bindings).2 with _ | e <;> cases c <;>
      simp [_incremental_compile_module, hc, hq, countCollected,
        countCompiled, List.countP_cons, isCollectedEvent, isCompiledEvent,
        collectedThenExecuted]

theorem formUnit_events [DecidableEq κ] (h : Host φ α π κ ν ε) (f : φ)
    (nm : String) (st : St ν) :
    countCollected (formUnit h f nm st).1 = 0
    ∧ countCompiled (formUnit h f nm st).1 = 0
    ∧ collectedThenExecuted (formUnit h f nm st).1 = true := by
  rcases ha : h.analyze_form f st.bindings with e | a
  · simp [formUnit, ha, countCollected, countCompiled, collectedThenExecuted]
  · rcases hg : h.gen_py_ast a with e | dn
    · simp [formUnit, ha, hg, countCollected, countCompiled,
        List.countP_cons, isCollectedEvent, isCompiledEvent,
        collectedThenExecuted]
    · rcases hc : h.compile (h.fix_missing_locations (h.optimize (h.mkModule
          (List.map h.statementize dn.1
            ++ [h.statementize (h.expressionize dn.2 nm)]))))
          h.filename with e | b <;>
        simp [formUnit, ha, hg, hc, countCollected, countCompiled,
          List.countP_cons, isCollectedEvent, isCompiledEvent,
          isAnalyzedEvent, collectedThenExecuted]

theorem bootstrap_collector [DecidableEq κ] (h : Host φ α π κ ν ε)
    (st : St ν) :
    countCollected (_bootstrap_module h st false).tr = 0
    ∧ collectedThenExecuted (_bootstrap_module h st false).tr = true := by
  rcases hp : h.py_module_preamble st.bindings with e | dn
  · simp [_bootstrap_module, hp, countCollected, collectedThenExecuted]
  · have hi := incremental_collector h dn.1 dn.2 st h.filename false
    rcases hr : (_incremental_compile_module h dn.1 dn.2 st h.filename
        false).res with e | u <;>
      simp [_bootstrap_module, hp, hr, countCollected, List.countP_cons,
        isCollectedEvent, collectedThenExecuted] at hi ⊢ <;>
      exact hi

theorem maybeBootstrap_collector [DecidableEq κ] (h : Host φ α π κ ν ε)
    (st : St ν) :
    countCollected (maybeBootstrap h st).tr = 0
    ∧ collectedThenExecuted (maybeBootstrap h st).tr = true := by
  cases hb : st.bootstrapped with
  | true => simp [maybeBootstrap, hb, countCollected, collectedThenExecuted]
  | false =>
    have := bootstrap_collector (κ := κ) h st
    simpa [maybeBootstrap, hb] using this

theorem oneForm_collector [DecidableEq κ] (h : Host φ α π κ ν ε) (f : φ)
    (st : St ν) :
    countCollected (compileOneForm h true f st).tr
      = countCompiled (compileOneForm h true f st).tr
    ∧ collectedThenExecuted (compileOneForm h true f st).tr = true := by
  rcases ha : h.analyze_form f st.bindings with e | a
  · simp [compileOneForm, ha, countCollected, countCompiled,
      collectedThenExecuted]
  · rcases hg : h.gen_py_ast a with e | dn
    · simp [compileOneForm, ha, hg, countCollected, countCompiled,
        List.countP_cons, isCollectedEvent, isCompiledEvent,
        collectedThenExecuted]
    · have hi := incremental_collector h dn.1 dn.2 st h.filename true
      simp [compileOneForm, ha, hg, countCollected, countCompiled,
        List.countP_cons, isCollectedEvent, isCompiledEvent,
        collectedThenExecuted] at hi ⊢
      exact hi

theorem moduleForms_collector [DecidableEq κ] (h : Host φ α π κ ν ε)
    (fs : List φ) (st : St ν) :
    countCollected (compileModuleForms h true fs st).tr
      = countCompiled (compileModuleForms h true fs st).tr
    ∧ collectedThenExecuted (compileModuleForms h true fs st).tr = true := by
  induction fs generalizing st with
  | nil =>
    simp [compileModuleForms, countCollected, countCompiled,
      collectedThenExecuted]
  | cons f fs ih =>
    have h1 := oneForm_collector h f st
    rcases hr : (compileOneForm h true f st).res with e | u
    · simp only [compileModuleForms, hr]
      exact h1
    · have h2 := ih ((compileOneForm h true f st).st)
      simp only [compileModuleForms, hr]
      constructor
      · have e1 := h1.1
        have e2 := h2.1
        simp only [countCollected, countCompiled, List.countP_append]
          at e1 e2 ⊢
        omega
      · exact cte_append _ _ h1.2 h2.2


/-- C1 (amended): for the drivers that accept a bytecode-collector
callback (`compile_and_exec_form` and `compile_module`), with a callback
supplied, the number of callback invocations equals the number of
assembled units produced from the supplied form(s) — that is, all
assembled units except the bootstrap preamble unit, which is never
reported because neither driver forwards the collector to the bootstrap
step — and every callback invocation is immediately followed by the
execution of the very unit just reported, so it precedes that unit's
execution. -/
theorem c1_collector_fidelity [DecidableEq κ] (h : Host φ α π κ ν ε)
    (f : φ) (base : String) (forms : List φ) (st : St ν) :
    (countCollected (compile_and_exec_form h (some f) base true st).tr
        + countCompiled (maybeBootstrap h st).tr
      = countCompiled (compile_and_exec_form h (some f) base true st).tr
     ∧ collectedThenExecuted
        (compile_and_exec_form h (some f) base true st).tr = true)
    ∧ (countCollected (compile_module h forms true st).tr
        + countCompiled (_bootstrap_module h st false).tr
      = countCompiled (compile_module h forms true st).tr
     ∧ collectedThenExecuted (compile_module h forms true st).tr
        = true) := by
  constructor
  · have hb := maybeBootstrap_collector (κ := κ) h st
    rcases hrb : (maybeBootstrap h st).res with e | u
    · simp only [compile_and_exec_form, hrb]
      refine ⟨?_, hb.2⟩
      have e1 := hb.1
      omega
    · have hfu := formUnit_events h f
        (genname base (maybeBootstrap h st).st.counter)
        (incCounter (maybeBootstrap h st).st)
      rcases hfr : (formUnit h f
          (genname base (maybeBootstrap h st).st.counter)
          (incCounter (maybeBootstrap h st).st)).2 with e | b
      · simp only [compile_and_exec_form, hrb, hfr]
        constructor
        · have e1 := hb.1
          have e2 := hfu.1
          have e3 := hfu.2.1
          simp only [countCollected, countCompiled, List.countP_append]
            at e1 e2 e3 ⊢
          omega
        · exact cte_append _ _ hb.2 hfu.2.2
      · have hblock : collectedThenExecuted
            ([Event.compiled b, Event.collected b, Event.executed b]
              : List (Event φ κ))
            = (true : Bool) := by
          simp [collectedThenExecuted]
        have hcount : ∀ t : List (Event φ κ),
            t = (maybeBootstrap h st).tr
              ++ (formUnit h f (genname base (maybeBootstrap h st).st.counter)
                    (incCounter (maybeBootstrap h st).st)).1
              ++ [Event.compiled b, Event.collected b, Event.executed b] →
            countCollected t + countCompiled (maybeBootstrap h st).tr
                = countCompiled t
              ∧ collectedThenExecuted t = true := by
          intro t ht
          subst ht
          constructor
          · have e1 := hb.1
            have e2 := hfu.1
            have e3 := hfu.2.1
            simp only [countCollected, countCompiled] at e1 e2 e3
            simp [countCollected, countCompiled, List.countP_append,
              List.countP_cons, isCollectedEvent, isCompiledEvent]
            omega
          · exact cte_append _ _ (cte_append _ _ hb.2 hfu.2.2) hblock
        rcases hq : (h.execCode b
            (incCounter (maybeBootstrap h st).st).bindings).2 with _ | e
        · rcases hgb : getBinding (h.execCode b
              (incCounter (maybeBootstrap h st).st).bindings).1
              (genname base (maybeBootstrap h st).st.counter) with _ | v
          · simp only [compile_and_exec_form, hrb, hfr, hq, hgb,
              collectTr_true]
            exact hcount _ rfl
          · simp only [compile_and_exec_form, hrb, hfr, hq, hgb,
              collectTr_true]
            exact hcount _ rfl
        · simp only [compile_and_exec_form, hrb, hfr, hq, collectTr_true]
          exact hcount _ rfl
  · have hbs := bootstrap_collector (κ := κ) h st
    rcases hrb : (_bootstrap_module h st false).res with e | u
    · simp only [compile_module, hrb]
      refine ⟨?_, hbs.2⟩
      have e1 := hbs.1
      omega
    · have hms := moduleForms_collector h forms
        ((_bootstrap_module h st false).st)
      simp only [compile_module, hrb]
      constructor
      · have e1 := hbs.1
        have e2 := hms.1
        simp only [countCollected, countCompiled, List.countP_append]
          at e1 e2 ⊢
        omega
      · exact cte_append _ _ hbs.2 hms.2

/-- Counterexample to C1 as stated: on the toy host, a single-form
evaluation on a fresh namespace with a collector supplied assembles two
units (the bootstrap preamble and the form's unit) but invokes the
callback only once — the preamble unit is assembled yet never reported,
so the callback count does not equal the count of all assembled units
including the preamble. -/
theorem c1_counterexample :
    countCollected (compile_and_exec_form H0 (some (some 5)) "z" true
        st0).tr = 1
    ∧ countCompiled (compile_and_exec_form H0 (some (some 5)) "z" true
        st0).tr = 2 :=
  ⟨rfl, rfl⟩

end Basilisp
